import Mathlib

/-! The library ipxwrapper: the router thread, the host table, the interface
list and the mutex.

A shallow embedding of `src/ipxwrapper.c`: the linked lists `sockets`, `hosts`
and `nics` become Lean lists (list order is `->next` order), the global
variables become the fields of `State`, the calls that leave the library
(`debug`, `r_getsockname`, `r_sendto`) are recorded as a trace of `Event`s and
their results are supplied by an `Env`.  Threads appear as schedules of calls
of `lock_mutex` and `unlock_mutex`.
-/

namespace Ipxwrapper

/-! ## Data model -/

/-- Constants of the header `ipxwrapper.h`, which is not among the sources at
hand.  Every function that needs one of them takes the header as a parameter,
so the results hold for whatever values the header gives them. -/
structure ipxwrapper_h where
  IPX_FILTER : Nat
  IPX_BOUND : Nat
  IPX_BROADCAST : Nat
  IPX_RECV : Nat
  MAX_PACKET_SIZE : Nat
  sizeof_ipx_packet : Nat
  deriving DecidableEq, Repr

/-- An `unsigned char [4]` array: an IPX network number. -/
structure Bytes4 where
  b0 : Nat
  b1 : Nat
  b2 : Nat
  b3 : Nat
  deriving DecidableEq, Repr

/-- An `unsigned char [6]` array: an IPX node number. -/
structure Bytes6 where
  b0 : Nat
  b1 : Nat
  b2 : Nat
  b3 : Nat
  b4 : Nat
  b5 : Nat
  deriving DecidableEq, Repr

/-- The bytes of a four byte array, lowest address first. -/
def Bytes4.toList (a : Bytes4) : List Nat := [a.b0, a.b1, a.b2, a.b3]

/-- The bytes of a six byte array, lowest address first. -/
def Bytes6.toList (a : Bytes6) : List Nat := [a.b0, a.b1, a.b2, a.b3, a.b4, a.b5]

/-- Modelled from the spec: the packet header `ipx_packet` of the missing
`ipxwrapper.h` (destination network/node/socket, source network/node/socket,
packet type, payload length, payload bytes).  The two socket numbers and the
length are 16 bit fields, held here with the value the host reads from the
receive buffer. -/
structure ipx_packet where
  ptype : Nat
  dest_net : Bytes4
  dest_node : Bytes6
  dest_socket : Nat
  src_net : Bytes4
  src_node : Bytes6
  src_socket : Nat
  size : Nat
  data : List Nat
  deriving DecidableEq, Repr

/-- Modelled from the spec: the socket registration entry `ipx_socket` of the
missing `ipxwrapper.h`, with the fields `router_main` and `get_socket` read. -/
structure ipx_socket where
  fd : Nat
  flags : Nat
  netnum : Bytes4
  nodenum : Bytes6
  socket : Nat
  f_ptype : Nat
  deriving DecidableEq, Repr

/-- Modelled from the spec: the host table entry `ipx_host` of the missing
`ipxwrapper.h`: a node number and the last IPv4 address seen for it. -/
structure ipx_host where
  hwaddr : Bytes6
  ipaddr : Nat
  deriving DecidableEq, Repr

/-- The part of `struct sockaddr_in` the router uses. -/
structure sockaddr_in where
  sin_port : Nat
  s_addr : Nat
  deriving DecidableEq, Repr

/-- The messages `router_main` and `add_host` pass to `debug`. -/
inductive debug_msg where
  | error_recieving
  | undersized
  | oversized
  | error_relaying
  | no_memory
  deriving DecidableEq, Repr

/-- A call that leaves the library, with the arguments that matter. -/
inductive Event where
  | debug (msg : debug_msg)
  | r_getsockname (fd : Nat)
  | r_sendto (fd : Nat) (buf : ipx_packet) (len : Int) (dest : sockaddr_in)
  deriving DecidableEq, Repr

/-- Results of the calls whose outcome the library does not control:
`malloc` in `add_host`, and per socket handle `r_getsockname` (`none` is the
return value -1) and the return value of `r_sendto`. -/
structure Env where
  malloc_ok : Bool
  r_getsockname : Nat → Option sockaddr_in
  r_sendto : Nat → Int

/-- The global variables of `ipxwrapper.c` the router works on. -/
structure State where
  sockets : List ipx_socket
  hosts : List ipx_host
  mutex_locked : Nat

/-- What one `recvfrom` call hands to the loop body: its return value, the
receive buffer seen as an `ipx_packet`, and the sender address. -/
structure recvfrom_result where
  rval : Int
  packet : ipx_packet
  addr : sockaddr_in
  deriving DecidableEq, Repr

/-! ## Library and system functions -/

/-- C `memcmp` on the first `n` bytes; the arrays compared by the library
always hold at least `n` bytes. -/
def memcmp : List Nat → List Nat → Nat → Int
  | a :: as, b :: bs, n + 1 =>
      if a = b then memcmp as bs n else if a < b then -1 else 1
  | _, _, _ => 0

/-- Winsock `ntohs` on the little-endian hosts the library runs on: the two
bytes of a 16 bit value are swapped. -/
def ntohs (x : Nat) : Nat := (x % 256) * 256 + (x / 256) % 256

/-- Winsock `ntohl` on the little-endian hosts the library runs on: the four
bytes of a 32 bit value are reversed. -/
def ntohl (x : Nat) : Nat :=
  (x % 256) * 16777216 + (x / 256 % 256) * 65536 + (x / 65536 % 256) * 256
    + (x / 16777216) % 256

/-- The array `f6` of `router_main`. -/
def f6 : List Nat := [0xFF, 0xFF, 0xFF, 0xFF, 0xFF, 0xFF]

/-! ## The mutex flag -/

/-- `lock_mutex`: nothing happens when the flag is already set. -/
def lock_mutex (st : State) : State :=
  if st.mutex_locked ≠ 0 then st else { st with mutex_locked := st.mutex_locked + 1 }

/-- `unlock_mutex`. -/
def unlock_mutex (st : State) : State := { st with mutex_locked := 0 }

/-! ## The host table -/

/-- The `while` loop of `add_host`: the first entry with the given node number
gets the new address; `none` when the loop runs off the end of the list. -/
def add_host_loop (hwaddr : Bytes6) (ipaddr : Nat) : List ipx_host → Option (List ipx_host)
  | [] => none
  | hptr :: next =>
      if memcmp hptr.hwaddr.toList hwaddr.toList 6 = 0 then
        some ({ hptr with ipaddr := ipaddr } :: next)
      else
        (add_host_loop hwaddr ipaddr next).map (fun l => hptr :: l)

/-- `add_host`: update in place, or else put a new entry at the head of the
list (when `malloc` succeeds). -/
def add_host (malloc_ok : Bool) (hosts : List ipx_host) (hwaddr : Bytes6) (ipaddr : Nat) :
    List ipx_host × List Event :=
  match add_host_loop hwaddr ipaddr hosts with
  | some hosts1 => (hosts1, [])
  | none =>
      if malloc_ok then ({ hwaddr := hwaddr, ipaddr := ipaddr } :: hosts, [])
      else (hosts, [Event.debug debug_msg.no_memory])

/-- `find_host`: the first entry with the given node number, `none` for NULL. -/
def find_host (hwaddr : Bytes6) : List ipx_host → Option ipx_host
  | [] => none
  | hptr :: next =>
      if memcmp hptr.hwaddr.toList hwaddr.toList 6 = 0 then some hptr
      else find_host hwaddr next

/-! ## The router thread -/

/-- The condition of the `if` in the `for` loop of `router_main`. -/
def router_main_match (K : ipxwrapper_h) (packet : ipx_packet) (sockptr : ipx_socket) : Bool :=
  (sockptr.flags &&& K.IPX_BOUND != 0) &&
  (sockptr.flags &&& K.IPX_RECV != 0) &&
  (packet.dest_socket == sockptr.socket) &&
  (
    !(sockptr.flags &&& K.IPX_FILTER != 0) ||
    packet.ptype == sockptr.f_ptype
  ) && (
    memcmp packet.dest_net.toList sockptr.netnum.toList 4 == 0 ||
    (
      memcmp packet.dest_net.toList f6 4 == 0 &&
      (sockptr.flags &&& K.IPX_BROADCAST != 0)
    )
  ) && (
    memcmp packet.dest_node.toList sockptr.nodenum.toList 6 == 0 ||
    (
      memcmp packet.dest_node.toList f6 6 == 0 &&
      (sockptr.flags &&& K.IPX_BROADCAST != 0)
    )
  )

/-- The body of that `if`: `r_getsockname`, `continue` when it fails, else
`r_sendto` of the `rval` received bytes and a `debug` call when it fails. -/
def router_main_deliver (env : Env) (packet : ipx_packet) (rval : Int) (sockptr : ipx_socket) :
    List Event :=
  match env.r_getsockname sockptr.fd with
  | none => [Event.r_getsockname sockptr.fd]
  | some addr =>
      if env.r_sendto sockptr.fd = -1 then
        [Event.r_getsockname sockptr.fd, Event.r_sendto sockptr.fd packet rval addr,
          Event.debug debug_msg.error_relaying]
      else
        [Event.r_getsockname sockptr.fd, Event.r_sendto sockptr.fd packet rval addr]

/-- The `for` loop of `router_main` over the socket list. -/
def router_main_relay (K : ipxwrapper_h) (env : Env) (packet : ipx_packet) (rval : Int) :
    List ipx_socket → List Event
  | [] => []
  | sockptr :: next =>
      (if router_main_match K packet sockptr then router_main_deliver env packet rval sockptr
        else []) ++ router_main_relay K env packet rval next

/-- The receive buffer after the three `ntohs` assignments of `router_main`. -/
def router_main_ntoh (packet : ipx_packet) : ipx_packet :=
  { packet with
    dest_socket := ntohs packet.dest_socket
    src_socket := ntohs packet.src_socket
    size := ntohs packet.size }

/-- One pass through the body of `while(1)` in `router_main`, from the return
of `recvfrom` to the next `recvfrom`.  The comparison of `rval` with `sizeof`
is reached with `rval` positive only, where the signed and the unsigned
reading agree. -/
def router_main_iteration (K : ipxwrapper_h) (env : Env) (st : State) (r : recvfrom_result) :
    State × List Event :=
  if r.rval ≤ 0 then (st, [Event.debug debug_msg.error_recieving])
  else if r.rval < (K.sizeof_ipx_packet : Int) then (st, [Event.debug debug_msg.undersized])
  else
    let packet := router_main_ntoh r.packet
    if packet.size > K.MAX_PACKET_SIZE then (st, [Event.debug debug_msg.oversized])
    else
      let st1 := lock_mutex st
      let added := add_host env.malloc_ok st1.hosts packet.src_node (ntohl r.addr.s_addr)
      let st2 := { st1 with hosts := added.1 }
      let relayed := router_main_relay K env packet r.rval st2.sockets
      (unlock_mutex st2, added.2 ++ relayed)

/-- The loop `while(1)` of `router_main` run on the datagrams received so far,
each with the results of the calls made while it is handled. -/
def router_main (K : ipxwrapper_h) (st : State) : List (Env × recvfrom_result) → State × List Event
  | [] => (st, [])
  | (env, r) :: rest =>
      let step := router_main_iteration K env st r
      let later := router_main K step.1 rest
      (later.1, step.2 ++ later.2)

/-! ## Reading the trace -/

/-- The socket handles `r_getsockname` was called on, in call order. -/
def getsockname_fds : List Event → List Nat
  | [] => []
  | Event.r_getsockname fd :: evs => fd :: getsockname_fds evs
  | _ :: evs => getsockname_fds evs

/-- The socket handles `r_sendto` was called on, in call order. -/
def sendto_fds : List Event → List Nat
  | [] => []
  | Event.r_sendto fd _ _ _ :: evs => fd :: sendto_fds evs
  | _ :: evs => sendto_fds evs

/-- A datagram that passes the size checks of `router_main`. -/
def valid_datagram (K : ipxwrapper_h) (r : recvfrom_result) : Prop :=
  0 < r.rval ∧ (K.sizeof_ipx_packet : Int) ≤ r.rval ∧ ntohs r.packet.size ≤ K.MAX_PACKET_SIZE

instance (K : ipxwrapper_h) (r : recvfrom_result) : Decidable (valid_datagram K r) := by
  unfold valid_datagram; infer_instance

/-- The entry has the flag: the C test `flags & FLAG` is true. -/
def has_flag (sockptr : ipx_socket) (flag : Nat) : Prop := sockptr.flags &&& flag ≠ 0

instance (sockptr : ipx_socket) (flag : Nat) : Decidable (has_flag sockptr flag) := by
  unfold has_flag; infer_instance

/-- The all-ones network number. -/
def bcast_net : Bytes4 := ⟨0xFF, 0xFF, 0xFF, 0xFF⟩

/-- The all-ones node number. -/
def bcast_node : Bytes6 := ⟨0xFF, 0xFF, 0xFF, 0xFF, 0xFF, 0xFF⟩

/-- The matching predicate as the specification words it, conditions 1 to 5,
for a packet whose socket numbers are already in host byte order. -/
def match_inbound_spec (K : ipxwrapper_h) (packet : ipx_packet) (entry : ipx_socket) : Prop :=
  (has_flag entry K.IPX_BOUND ∧ has_flag entry K.IPX_RECV) ∧
  packet.dest_socket = entry.socket ∧
  (¬ has_flag entry K.IPX_FILTER ∨ packet.ptype = entry.f_ptype) ∧
  (packet.dest_net = entry.netnum ∨
    (packet.dest_net = bcast_net ∧ has_flag entry K.IPX_BROADCAST)) ∧
  (packet.dest_node = entry.nodenum ∨
    (packet.dest_node = bcast_node ∧ has_flag entry K.IPX_BROADCAST))

/-- The host list holds at most one entry for each node number. -/
def hosts_unique (hosts : List ipx_host) : Prop := (hosts.map ipx_host.hwaddr).Nodup

instance (hosts : List ipx_host) : Decidable (hosts_unique hosts) := by
  unfold hosts_unique; infer_instance

instance (K : ipxwrapper_h) (packet : ipx_packet) (entry : ipx_socket) :
    Decidable (match_inbound_spec K packet entry) := by
  unfold match_inbound_spec; infer_instance

/-- Sample values for the constants of `ipxwrapper.h`, used to run the
definitions on concrete inputs: the four flags are distinct bits. -/
def sample_h : ipxwrapper_h :=
  { IPX_FILTER := 1, IPX_BOUND := 2, IPX_BROADCAST := 4, IPX_RECV := 16,
    MAX_PACKET_SIZE := 8192, sizeof_ipx_packet := 28 }

/-! ## The interface list -/

/-- Modelled from the spec: the interface record `ipx_nic` of the missing
`ipxwrapper.h`: IP address, netmask, derived broadcast address, derived usable
address range and hardware address.  The five addresses are 32 bit unsigned
fields in host byte order; `end_` is the field `end`. -/
structure ipx_nic where
  ipaddr : Nat
  netmask : Nat
  bcast : Nat
  start : Nat
  end_ : Nat
  hwaddr : Bytes6
  deriving DecidableEq, Repr

/-- What `DllMain` reads of one `IP_ADAPTER_INFO`: the values `inet_addr`
returns for the address string and the mask string, and the hardware address. -/
structure IP_ADAPTER_INFO where
  IpAddress : Nat
  IpMask : Nat
  Address : Bytes6
  deriving DecidableEq, Repr

/-- C `~` on a 32 bit unsigned value.  The constant `~1` of `DllMain` is the
`int` -2, which becomes the unsigned value `not32 1` when it meets an unsigned
operand. -/
def not32 (x : Nat) : Nat := 4294967295 - x % 4294967296

/-- The assignments `DllMain` makes to the record of one adapter; each store
into a 32 bit field keeps the value modulo 2^32. -/
def DllMain_nic (ifptr : IP_ADAPTER_INFO) : ipx_nic :=
  let ipaddr := ntohl ifptr.IpAddress
  let netmask := ntohl ifptr.IpMask
  { ipaddr := ipaddr
    netmask := netmask
    bcast := (ipaddr ||| not32 netmask) % 4294967296
    start := ((ipaddr &&& netmask) ||| 1) % 4294967296
    end_ := ((ipaddr &&& netmask) ||| (not32 netmask &&& not32 1)) % 4294967296
    hwaddr := ifptr.Address }

/-- The `while(ifptr)` loop of `DllMain`.  Each pass allocates a record and
fills it in; `built` collects the records in the order of their allocation.
The pointer `enic` is set once, to the first record, which is also the head
of `nics`; every later pass stores the new record in `enic->next`, so that
`nics` then is the first record followed by the newest one.  The macro
`INIT_NIC` of the missing header is taken to clear the `next` pointer of the
new record.  The result is `none` when the `malloc` numbered `k` or a later
one fails and `DllMain` returns FALSE, and otherwise the records built and the
list `nics`. -/
def DllMain_nics (malloc_ok : Nat → Bool) (k : Nat) (built nics : List ipx_nic) :
    List IP_ADAPTER_INFO → Option (List ipx_nic × List ipx_nic)
  | [] => some (built, nics)
  | ifptr :: Next =>
      if malloc_ok k then
        match nics with
        | [] =>
            DllMain_nics malloc_ok (k + 1) (built ++ [DllMain_nic ifptr])
              [DllMain_nic ifptr] Next
        | enic :: _ =>
            DllMain_nics malloc_ok (k + 1) (built ++ [DllMain_nic ifptr])
              [enic, DllMain_nic ifptr] Next
      else none

/-- The netmask with `len` leading one bits, `len` at most 32. -/
def netmask_of_len (len : Nat) : Nat := 4294967296 - 2 ^ (32 - len)

/-! ## The packet codec -/

/-- Winsock `htons` on the little-endian hosts the library runs on. -/
def htons (x : Nat) : Nat := (x % 256) * 256 + (x / 256) % 256

/-- The header parse of `router_main`: the check of the received length
against `sizeof(ipx_packet)`, the three `ntohs` assignments and the check of
the length field; `none` when the datagram is discarded. -/
def router_main_decode (K : ipxwrapper_h) (rval : Int) (packet : ipx_packet) :
    Option ipx_packet :=
  if rval < (K.sizeof_ipx_packet : Int) then none
  else
    let packet1 := router_main_ntoh packet
    if packet1.size > K.MAX_PACKET_SIZE then none else some packet1

/-- Modelled from the spec: `encode`, the serialisation of a packet, which is
not among the sources: the header with the two socket numbers and the length
in big-endian order, followed by the payload.  The result is the length of
the datagram and the buffer as the receiving host sees it. -/
def encode (K : ipxwrapper_h) (p : ipx_packet) : Int × ipx_packet :=
  ((K.sizeof_ipx_packet : Int) + (p.data.length : Int),
    { p with
      dest_socket := htons p.dest_socket
      src_socket := htons p.src_socket
      size := htons p.size })

/-! ## Looking up a socket -/

/-- The `while(ptr)` loop of `get_socket`. -/
def get_socket_loop (fd : Nat) : List ipx_socket → Option ipx_socket
  | [] => none
  | ptr :: next => if ptr.fd = fd then some ptr else get_socket_loop fd next

/-- `get_socket`: the entry found (`none` for NULL) and the globals on return. -/
def get_socket (fd : Nat) (st : State) : Option ipx_socket × State :=
  let st1 := lock_mutex st
  match get_socket_loop fd st1.sockets with
  | some ptr => (some ptr, st1)
  | none => (none, unlock_mutex st1)

/-! ## Threads and the mutex -/

/-- The globals together with the Windows mutex object and the threads that
use them: `owner` is the thread that owns the mutex object and `depth` how
often it has acquired it; `inside` lists the threads that have returned from
`lock_mutex` and have not called `unlock_mutex` since. -/
structure Threads where
  globals : State
  owner : Option Nat
  depth : Nat
  inside : List Nat

/-- The two calls a thread makes on the lock. -/
inductive Call where
  | lock
  | unlock
  deriving DecidableEq, Repr

/-- Thread `t` runs `lock_mutex` to its return.  With the flag set the call
returns at once.  Otherwise `WaitForSingleObject` acquires the mutex object
when it is free or already owned by `t`; `none` says that `t` stays blocked
in the wait. -/
def thread_lock_mutex (t : Nat) (c : Threads) : Option Threads :=
  if c.globals.mutex_locked ≠ 0 then
    some { c with inside := t :: c.inside }
  else
    match c.owner with
    | none =>
        some { globals := lock_mutex c.globals, owner := some t, depth := 1,
               inside := t :: c.inside }
    | some o =>
        if o = t then
          some { globals := lock_mutex c.globals, owner := some t, depth := c.depth + 1,
                 inside := t :: c.inside }
        else none

/-- Thread `t` runs `unlock_mutex`: the flag is cleared, and `ReleaseMutex`
releases the mutex object once when `t` owns it and fails otherwise. -/
def thread_unlock_mutex (t : Nat) (c : Threads) : Threads :=
  { globals := unlock_mutex c.globals
    owner := if c.owner = some t then (if c.depth ≤ 1 then none else some t) else c.owner
    depth := if c.owner = some t then c.depth - 1 else c.depth
    inside := c.inside.erase t }

/-- The calls of a schedule run one after the other, each to its return;
`none` when a thread of the schedule would have to wait. -/
def run_schedule (c : Threads) : List (Nat × Call) → Option Threads
  | [] => some c
  | (t, Call.lock) :: rest =>
      match thread_lock_mutex t c with
      | some c1 => run_schedule c1 rest
      | none => none
  | (t, Call.unlock) :: rest => run_schedule (thread_unlock_mutex t c) rest

/-- The state of the threads when `DllMain` has created the mutex. -/
def threads_init (st : State) : Threads :=
  { globals := { st with mutex_locked := 0 }, owner := none, depth := 0, inside := [] }

/-- At most one thread is between a return from `lock_mutex` and its next
`unlock_mutex`. -/
def at_most_one_inside (c : Threads) : Prop := c.inside.dedup.length ≤ 1

instance (c : Threads) : Decidable (at_most_one_inside c) := by
  unfold at_most_one_inside; infer_instance

/-! ## Concrete inputs -/

/-- Network number 00:00:00:01. -/
def net_1 : Bytes4 := ⟨0x00, 0x00, 0x00, 0x01⟩

/-- Node number AA:BB:CC:DD:EE:FF. -/
def node_a : Bytes6 := ⟨0xAA, 0xBB, 0xCC, 0xDD, 0xEE, 0xFF⟩

/-- Node number 02:00:00:00:00:07, the sender of the sample packets. -/
def node_b : Bytes6 := ⟨0x02, 0x00, 0x00, 0x00, 0x00, 0x07⟩

/-- A registry entry built from handle, flags, network number and filter type,
bound to node AA:BB:CC:DD:EE:FF and socket number 0x0452. -/
def sample_socket (fd flags : Nat) (netnum : Bytes4) (f_ptype : Nat) : ipx_socket :=
  { fd := fd, flags := flags, netnum := netnum, nodenum := node_a, socket := 0x0452,
    f_ptype := f_ptype }

/-- A received datagram of 30 bytes from 192.168.0.7 with packet type 0, whose
socket number and length fields hold 0x0452 and 28 in network byte order. -/
def sample_recv (dest_net : Bytes4) (dest_node : Bytes6) : recvfrom_result :=
  { rval := 30,
    packet := { ptype := 0, dest_net := dest_net, dest_node := dest_node, dest_socket := 0x5204,
                src_net := net_1, src_node := node_b, src_socket := 0x5204, size := 0x1C00,
                data := [0x68, 0x69] },
    addr := { sin_port := 0x08D6, s_addr := 0x0700A8C0 } }

/-- Every delivery call succeeds. -/
def env_ok : Env :=
  { malloc_ok := true,
    r_getsockname := fun fd => some { sin_port := fd, s_addr := 0x0100007F },
    r_sendto := fun _ => 30 }

/-- Delivery fails at handle 11 in `r_getsockname`, elsewhere in `r_sendto`. -/
def env_fail : Env :=
  { malloc_ok := true,
    r_getsockname := fun fd =>
      if fd = 11 then none else some { sin_port := fd, s_addr := 0x0100007F },
    r_sendto := fun _ => -1 }

/-- A state with the given registry, no hosts, and the mutex free. -/
def sample_state (sockets : List ipx_socket) : State :=
  { sockets := sockets, hosts := [], mutex_locked := 0 }

/-- A registry of four entries on network 00:00:00:01 and socket 0x0452: handle
10 without BROADCAST, handles 11 and 12 with BROADCAST, handle 13 with
BROADCAST and a filter on packet type 4. -/
def sample_registry : List ipx_socket :=
  [sample_socket 10 18 net_1 0, sample_socket 11 22 net_1 0, sample_socket 12 22 net_1 0,
    sample_socket 13 23 net_1 4]

/-- The adapter 192.168.0.7 with mask 255.255.255.0. -/
def sample_adapter : IP_ADAPTER_INFO :=
  { IpAddress := 0x0700A8C0, IpMask := 0x00FFFFFF, Address := node_a }

/-- A packet in host byte order with a two byte payload. -/
def sample_packet : ipx_packet :=
  { ptype := 4, dest_net := net_1, dest_node := node_a, dest_socket := 0x0452,
    src_net := net_1, src_node := node_b, src_socket := 0x4001, size := 2,
    data := [0x68, 0x69] }

/-! ## Lemmas on memcmp and the flags -/

theorem memcmp_ne_zero_of_ne (a b : Nat) (as bs : List Nat) (n : Nat) (h : a ≠ b) :
    memcmp (a :: as) (b :: bs) (n + 1) ≠ 0 := by
  simp only [memcmp, if_neg h]
  split_ifs <;> decide

theorem memcmp_cons_eq_zero (a b : Nat) (as bs : List Nat) (n : Nat) :
    memcmp (a :: as) (b :: bs) (n + 1) = 0 ↔ a = b ∧ memcmp as bs n = 0 := by
  by_cases h : a = b
  · simp [memcmp, h]
  · simp [h, memcmp_ne_zero_of_ne a b as bs n h]

theorem memcmp_bytes4 (a b : Bytes4) : memcmp a.toList b.toList 4 = 0 ↔ a = b := by
  cases a; cases b
  simp only [Bytes4.toList, memcmp_cons_eq_zero, Bytes4.mk.injEq]
  simp [memcmp]

theorem memcmp_bytes6 (a b : Bytes6) : memcmp a.toList b.toList 6 = 0 ↔ a = b := by
  cases a; cases b
  simp only [Bytes6.toList, memcmp_cons_eq_zero, Bytes6.mk.injEq]
  simp [memcmp]

theorem memcmp_f6_4 (a : Bytes4) : memcmp a.toList f6 4 = 0 ↔ a = bcast_net := by
  cases a
  simp only [Bytes4.toList, f6, bcast_net, memcmp_cons_eq_zero, Bytes4.mk.injEq]
  simp [memcmp]

theorem memcmp_f6_6 (a : Bytes6) : memcmp a.toList f6 6 = 0 ↔ a = bcast_node := by
  cases a
  simp only [Bytes6.toList, f6, bcast_node, memcmp_cons_eq_zero, Bytes6.mk.injEq]
  simp [memcmp]

/-- The condition of the router is the matching predicate of the specification. -/
theorem router_main_match_iff (K : ipxwrapper_h) (packet : ipx_packet) (sockptr : ipx_socket) :
    router_main_match K packet sockptr = true ↔ match_inbound_spec K packet sockptr := by
  simp only [router_main_match, match_inbound_spec, has_flag, Bool.and_eq_true, Bool.or_eq_true,
    bne_iff_ne, beq_iff_eq, Bool.not_eq_true', memcmp_bytes4, memcmp_bytes6, memcmp_f6_4,
    memcmp_f6_6, ne_eq, bne_eq_false_iff_eq, and_assoc, Decidable.not_not]

/-! ## Lemmas on the trace of the relay loop -/

theorem getsockname_fds_append (a b : List Event) :
    getsockname_fds (a ++ b) = getsockname_fds a ++ getsockname_fds b := by
  induction a with
  | nil => rfl
  | cons e a ih => cases e <;> simp [getsockname_fds, ih]

theorem sendto_fds_append (a b : List Event) :
    sendto_fds (a ++ b) = sendto_fds a ++ sendto_fds b := by
  induction a with
  | nil => rfl
  | cons e a ih => cases e <;> simp [sendto_fds, ih]

theorem getsockname_fds_deliver (env : Env) (packet : ipx_packet) (rval : Int) (s : ipx_socket) :
    getsockname_fds (router_main_deliver env packet rval s) = [s.fd] := by
  unfold router_main_deliver
  cases env.r_getsockname s.fd with
  | none => rfl
  | some a => by_cases h : env.r_sendto s.fd = -1 <;> simp [h, getsockname_fds]

theorem sendto_fds_deliver (env : Env) (packet : ipx_packet) (rval : Int) (s : ipx_socket) :
    sendto_fds (router_main_deliver env packet rval s)
      = if (env.r_getsockname s.fd).isSome then [s.fd] else [] := by
  unfold router_main_deliver
  cases env.r_getsockname s.fd with
  | none => rfl
  | some a => by_cases h : env.r_sendto s.fd = -1 <;> simp [h, sendto_fds]

theorem getsockname_fds_relay (K : ipxwrapper_h) (env : Env) (packet : ipx_packet) (rval : Int)
    (socks : List ipx_socket) :
    getsockname_fds (router_main_relay K env packet rval socks)
      = (socks.filter (router_main_match K packet)).map ipx_socket.fd := by
  induction socks with
  | nil => rfl
  | cons s socks ih =>
    simp only [router_main_relay, getsockname_fds_append, ih, List.filter_cons]
    by_cases h : router_main_match K packet s = true
    · simp [h, getsockname_fds_deliver]
    · simp [h, getsockname_fds]

theorem sendto_fds_relay (K : ipxwrapper_h) (env : Env) (packet : ipx_packet) (rval : Int)
    (socks : List ipx_socket) :
    sendto_fds (router_main_relay K env packet rval socks)
      = (socks.filter (fun s => router_main_match K packet s
          && (env.r_getsockname s.fd).isSome)).map ipx_socket.fd := by
  induction socks with
  | nil => rfl
  | cons s socks ih =>
    simp only [router_main_relay, sendto_fds_append, ih, List.filter_cons]
    by_cases h : router_main_match K packet s = true
    · by_cases g : (env.r_getsockname s.fd).isSome = true <;> simp [h, g, sendto_fds_deliver]
    · simp [h, sendto_fds]

theorem getsockname_fds_add_host (m : Bool) (hosts : List ipx_host) (hw : Bytes6) (ip : Nat) :
    getsockname_fds (add_host m hosts hw ip).2 = [] := by
  unfold add_host
  cases add_host_loop hw ip hosts with
  | some l => rfl
  | none => cases m <;> rfl

theorem sendto_fds_add_host (m : Bool) (hosts : List ipx_host) (hw : Bytes6) (ip : Nat) :
    sendto_fds (add_host m hosts hw ip).2 = [] := by
  unfold add_host
  cases add_host_loop hw ip hosts with
  | some l => rfl
  | none => cases m <;> rfl

theorem lock_mutex_sockets (st : State) : (lock_mutex st).sockets = st.sockets := by
  unfold lock_mutex; split_ifs <;> rfl

theorem lock_mutex_hosts (st : State) : (lock_mutex st).hosts = st.hosts := by
  unfold lock_mutex; split_ifs <;> rfl

/-- A datagram that fails a size check is dropped with one `debug` call. -/
theorem iteration_of_not_valid (K : ipxwrapper_h) (env : Env) (st : State) (r : recvfrom_result)
    (h : ¬ valid_datagram K r) :
    ∃ m, router_main_iteration K env st r = (st, [Event.debug m]) := by
  unfold router_main_iteration
  by_cases h1 : r.rval ≤ 0
  · exact ⟨debug_msg.error_recieving, by simp [h1]⟩
  · by_cases h2 : r.rval < (K.sizeof_ipx_packet : Int)
    · exact ⟨debug_msg.undersized, by simp [h1, h2]⟩
    · by_cases h3 : (router_main_ntoh r.packet).size > K.MAX_PACKET_SIZE
      · exact ⟨debug_msg.oversized, by simp [h1, h2, h3]⟩
      · exfalso
        apply h
        refine ⟨by omega, by omega, ?_⟩
        simpa [router_main_ntoh] using h3

/-- What the loop body does with a datagram that passes the size checks. -/
theorem iteration_of_valid (K : ipxwrapper_h) (env : Env) (st : State) (r : recvfrom_result)
    (h : valid_datagram K r) :
    router_main_iteration K env st r =
      (unlock_mutex { lock_mutex st with
          hosts := (add_host env.malloc_ok (lock_mutex st).hosts
            (router_main_ntoh r.packet).src_node (ntohl r.addr.s_addr)).1 },
        (add_host env.malloc_ok (lock_mutex st).hosts
            (router_main_ntoh r.packet).src_node (ntohl r.addr.s_addr)).2
          ++ router_main_relay K env (router_main_ntoh r.packet) r.rval st.sockets) := by
  obtain ⟨h1, h2, h3⟩ := h
  have h1' : ¬ r.rval ≤ 0 := by omega
  have h2' : ¬ r.rval < (K.sizeof_ipx_packet : Int) := by omega
  have h3' : ¬ (router_main_ntoh r.packet).size > K.MAX_PACKET_SIZE := by
    simpa [router_main_ntoh] using h3
  unfold router_main_iteration
  simp only [if_neg h1', if_neg h2', if_neg h3', lock_mutex_sockets]

theorem getsockname_fds_iteration (K : ipxwrapper_h) (env : Env) (st : State)
    (r : recvfrom_result) :
    getsockname_fds (router_main_iteration K env st r).2
      = if valid_datagram K r then
          (st.sockets.filter (router_main_match K (router_main_ntoh r.packet))).map ipx_socket.fd
        else [] := by
  by_cases h : valid_datagram K r
  · rw [iteration_of_valid K env st r h, if_pos h]
    simp [getsockname_fds_append, getsockname_fds_add_host, getsockname_fds_relay]
  · obtain ⟨m, hm⟩ := iteration_of_not_valid K env st r h
    rw [hm, if_neg h]; rfl

theorem sendto_fds_iteration (K : ipxwrapper_h) (env : Env) (st : State)
    (r : recvfrom_result) :
    sendto_fds (router_main_iteration K env st r).2
      = if valid_datagram K r then
          (st.sockets.filter (fun s => router_main_match K (router_main_ntoh r.packet) s
            && (env.r_getsockname s.fd).isSome)).map ipx_socket.fd
        else [] := by
  by_cases h : valid_datagram K r
  · rw [iteration_of_valid K env st r h, if_pos h]
    simp [sendto_fds_append, sendto_fds_add_host, sendto_fds_relay]
  · obtain ⟨m, hm⟩ := iteration_of_not_valid K env st r h
    rw [hm, if_neg h]; rfl

/-- With unique handles, the handle of a registered entry is among the handles
of the entries a filter keeps exactly when the filter keeps that entry. -/
theorem fd_mem_filter_iff (p : ipx_socket → Bool) (socks : List ipx_socket) (s : ipx_socket)
    (hfd : (socks.map ipx_socket.fd).Nodup) (hs : s ∈ socks) :
    s.fd ∈ (socks.filter p).map ipx_socket.fd ↔ p s = true := by
  constructor
  · intro h
    obtain ⟨t, ht, hfdeq⟩ := List.mem_map.1 h
    obtain ⟨ht1, ht2⟩ := List.mem_filter.1 ht
    have : t = s := List.inj_on_of_nodup_map hfd ht1 hs hfdeq
    rw [← this]; exact ht2
  · intro h
    exact List.mem_map.2 ⟨s, List.mem_filter.2 ⟨hs, h⟩, rfl⟩

/-- An entry the condition rejects gets neither delivery call. -/
theorem not_relayed_of_not_match (K : ipxwrapper_h) (env : Env) (st : State)
    (r : recvfrom_result) (s : ipx_socket)
    (hfd : (st.sockets.map ipx_socket.fd).Nodup) (hs : s ∈ st.sockets)
    (hm : router_main_match K (router_main_ntoh r.packet) s = false) :
    s.fd ∉ getsockname_fds (router_main_iteration K env st r).2 ∧
    s.fd ∉ sendto_fds (router_main_iteration K env st r).2 := by
  rw [getsockname_fds_iteration, sendto_fds_iteration]
  by_cases hv : valid_datagram K r
  · simp only [if_pos hv]
    rw [fd_mem_filter_iff _ _ _ hfd hs, fd_mem_filter_iff _ _ _ hfd hs]
    simp [hm]
  · simp [if_neg hv]

/-! ## The matching predicate of the router -/

/-- C1: for a datagram that passed validation and an entry of a registry with
unique handles, the router enters the relay branch for the entry (calls
`r_getsockname` on its handle) if and only if the five conditions hold: BOUND
and RECV set; the byte-swapped destination socket equals the entry's socket;
no FILTER or equal packet type; network equal, or all-ones with BROADCAST; node
equal, or all-ones with BROADCAST.  Conditions 4 and 5 are separate conjuncts. -/
theorem router_selects_iff_five_conditions (K : ipxwrapper_h) (env : Env) (st : State)
    (r : recvfrom_result) (s : ipx_socket)
    (hv : valid_datagram K r) (hfd : (st.sockets.map ipx_socket.fd).Nodup)
    (hs : s ∈ st.sockets) :
    s.fd ∈ getsockname_fds (router_main_iteration K env st r).2 ↔
      ((has_flag s K.IPX_BOUND ∧ has_flag s K.IPX_RECV) ∧
        ntohs r.packet.dest_socket = s.socket ∧
        (¬ has_flag s K.IPX_FILTER ∨ r.packet.ptype = s.f_ptype) ∧
        (r.packet.dest_net = s.netnum ∨
          (r.packet.dest_net = bcast_net ∧ has_flag s K.IPX_BROADCAST)) ∧
        (r.packet.dest_node = s.nodenum ∨
          (r.packet.dest_node = bcast_node ∧ has_flag s K.IPX_BROADCAST))) := by
  rw [getsockname_fds_iteration, if_pos hv, fd_mem_filter_iff _ _ _ hfd hs,
    router_main_match_iff]
  rfl

/-- C1 at a concrete input: a packet with the all-ones network and a unicast
node reaches a BOUND, RECV, BROADCAST entry bound to that node. -/
theorem router_selects_iff_five_conditions_witness :
    valid_datagram sample_h (sample_recv bcast_net node_a) ∧
    ((sample_state [sample_socket 10 22 net_1 0]).sockets.map ipx_socket.fd).Nodup ∧
    sample_socket 10 22 net_1 0 ∈ (sample_state [sample_socket 10 22 net_1 0]).sockets ∧
    ((sample_socket 10 22 net_1 0).fd ∈ getsockname_fds (router_main_iteration sample_h env_ok
        (sample_state [sample_socket 10 22 net_1 0]) (sample_recv bcast_net node_a)).2 ↔
      ((has_flag (sample_socket 10 22 net_1 0) sample_h.IPX_BOUND ∧
          has_flag (sample_socket 10 22 net_1 0) sample_h.IPX_RECV) ∧
        ntohs (sample_recv bcast_net node_a).packet.dest_socket
          = (sample_socket 10 22 net_1 0).socket ∧
        (¬ has_flag (sample_socket 10 22 net_1 0) sample_h.IPX_FILTER ∨
          (sample_recv bcast_net node_a).packet.ptype = (sample_socket 10 22 net_1 0).f_ptype) ∧
        ((sample_recv bcast_net node_a).packet.dest_net = (sample_socket 10 22 net_1 0).netnum ∨
          ((sample_recv bcast_net node_a).packet.dest_net = bcast_net ∧
            has_flag (sample_socket 10 22 net_1 0) sample_h.IPX_BROADCAST)) ∧
        ((sample_recv bcast_net node_a).packet.dest_node
            = (sample_socket 10 22 net_1 0).nodenum ∨
          ((sample_recv bcast_net node_a).packet.dest_node = bcast_node ∧
            has_flag (sample_socket 10 22 net_1 0) sample_h.IPX_BROADCAST)))) :=
  ⟨by decide, by decide, by decide,
    router_selects_iff_five_conditions sample_h env_ok
      (sample_state [sample_socket 10 22 net_1 0]) (sample_recv bcast_net node_a)
      (sample_socket 10 22 net_1 0) (by decide) (by decide) (by decide)⟩

/-- C2 as stated fails: an entry without BROADCAST whose own bound network is
all-ones is sent a packet addressed to the all-ones network and to its node. -/
theorem wildcard_without_broadcast_counterexample :
    valid_datagram sample_h (sample_recv bcast_net node_a) ∧
    sample_socket 14 18 bcast_net 0 ∈ (sample_state [sample_socket 14 18 bcast_net 0]).sockets ∧
    ¬ has_flag (sample_socket 14 18 bcast_net 0) sample_h.IPX_BROADCAST ∧
    (sample_recv bcast_net node_a).packet.dest_net = bcast_net ∧
    sendto_fds (router_main_iteration sample_h env_ok
      (sample_state [sample_socket 14 18 bcast_net 0]) (sample_recv bcast_net node_a)).2
      = [(sample_socket 14 18 bcast_net 0).fd] := by
  decide

/-- C2, amended: an entry without BROADCAST in a registry with unique handles
gets no delivery call for a packet whose destination network is all-ones while
the entry's network is not, or whose destination node is all-ones while the
entry's node is not. -/
theorem wildcard_excluded_without_broadcast (K : ipxwrapper_h) (env : Env) (st : State)
    (r : recvfrom_result) (s : ipx_socket)
    (hfd : (st.sockets.map ipx_socket.fd).Nodup) (hs : s ∈ st.sockets)
    (hb : ¬ has_flag s K.IPX_BROADCAST)
    (hw : (r.packet.dest_net = bcast_net ∧ s.netnum ≠ bcast_net) ∨
      (r.packet.dest_node = bcast_node ∧ s.nodenum ≠ bcast_node)) :
    s.fd ∉ getsockname_fds (router_main_iteration K env st r).2 ∧
    s.fd ∉ sendto_fds (router_main_iteration K env st r).2 := by
  apply not_relayed_of_not_match K env st r s hfd hs
  rw [Bool.eq_false_iff]
  intro hm
  obtain ⟨_, _, _, h4, h5⟩ := (router_main_match_iff K _ s).1 hm
  have h4' : r.packet.dest_net = s.netnum ∨
      (r.packet.dest_net = bcast_net ∧ has_flag s K.IPX_BROADCAST) := h4
  have h5' : r.packet.dest_node = s.nodenum ∨
      (r.packet.dest_node = bcast_node ∧ has_flag s K.IPX_BROADCAST) := h5
  rcases hw with ⟨hn, hne⟩ | ⟨hn, hne⟩
  · rcases h4' with h | ⟨_, h⟩
    · exact hne (h ▸ hn)
    · exact hb h
  · rcases h5' with h | ⟨_, h⟩
    · exact hne (h ▸ hn)
    · exact hb h

/-- C2, amended, at a concrete input: a packet to the all-ones node is kept
from an entry without BROADCAST bound to node AA:BB:CC:DD:EE:FF. -/
theorem wildcard_excluded_without_broadcast_witness :
    ((sample_state [sample_socket 10 18 net_1 0]).sockets.map ipx_socket.fd).Nodup ∧
    sample_socket 10 18 net_1 0 ∈ (sample_state [sample_socket 10 18 net_1 0]).sockets ∧
    ¬ has_flag (sample_socket 10 18 net_1 0) sample_h.IPX_BROADCAST ∧
    (((sample_recv net_1 bcast_node).packet.dest_net = bcast_net ∧
        (sample_socket 10 18 net_1 0).netnum ≠ bcast_net) ∨
      ((sample_recv net_1 bcast_node).packet.dest_node = bcast_node ∧
        (sample_socket 10 18 net_1 0).nodenum ≠ bcast_node)) ∧
    ((sample_socket 10 18 net_1 0).fd ∉ getsockname_fds (router_main_iteration sample_h env_ok
        (sample_state [sample_socket 10 18 net_1 0]) (sample_recv net_1 bcast_node)).2 ∧
      (sample_socket 10 18 net_1 0).fd ∉ sendto_fds (router_main_iteration sample_h env_ok
        (sample_state [sample_socket 10 18 net_1 0]) (sample_recv net_1 bcast_node)).2) :=
  ⟨by decide, by decide, by decide, by decide,
    wildcard_excluded_without_broadcast sample_h env_ok
      (sample_state [sample_socket 10 18 net_1 0]) (sample_recv net_1 bcast_node)
      (sample_socket 10 18 net_1 0) (by decide) (by decide) (by decide) (by decide)⟩

/-- C3: an entry with FILTER set, in a registry with unique handles, gets no
delivery call for a packet whose type differs from the entry's filter type,
whatever its other flags and whatever the destination address is. -/
theorem type_filter_excludes (K : ipxwrapper_h) (env : Env) (st : State)
    (r : recvfrom_result) (s : ipx_socket)
    (hfd : (st.sockets.map ipx_socket.fd).Nodup) (hs : s ∈ st.sockets)
    (hf : has_flag s K.IPX_FILTER) (ht : r.packet.ptype ≠ s.f_ptype) :
    s.fd ∉ getsockname_fds (router_main_iteration K env st r).2 ∧
    s.fd ∉ sendto_fds (router_main_iteration K env st r).2 := by
  apply not_relayed_of_not_match K env st r s hfd hs
  rw [Bool.eq_false_iff]
  intro hm
  obtain ⟨_, _, h3, _, _⟩ := (router_main_match_iff K _ s).1 hm
  have h3' : ¬ has_flag s K.IPX_FILTER ∨ r.packet.ptype = s.f_ptype := h3
  rcases h3' with h | h
  · exact h hf
  · exact ht h

/-- C3 at a concrete input: a packet of type 0 whose address matches is kept
from an entry filtering on type 4. -/
theorem type_filter_excludes_witness :
    ((sample_state [sample_socket 13 23 net_1 4]).sockets.map ipx_socket.fd).Nodup ∧
    sample_socket 13 23 net_1 4 ∈ (sample_state [sample_socket 13 23 net_1 4]).sockets ∧
    has_flag (sample_socket 13 23 net_1 4) sample_h.IPX_FILTER ∧
    (sample_recv net_1 node_a).packet.ptype ≠ (sample_socket 13 23 net_1 4).f_ptype ∧
    ((sample_socket 13 23 net_1 4).fd ∉ getsockname_fds (router_main_iteration sample_h env_ok
        (sample_state [sample_socket 13 23 net_1 4]) (sample_recv net_1 node_a)).2 ∧
      (sample_socket 13 23 net_1 4).fd ∉ sendto_fds (router_main_iteration sample_h env_ok
        (sample_state [sample_socket 13 23 net_1 4]) (sample_recv net_1 node_a)).2) :=
  ⟨by decide, by decide, by decide, by decide,
    type_filter_excludes sample_h env_ok
      (sample_state [sample_socket 13 23 net_1 4]) (sample_recv net_1 node_a)
      (sample_socket 13 23 net_1 4) (by decide) (by decide) (by decide) (by decide)⟩

/-! ## Relaying to every match -/

theorem router_main_match_eq_decide (K : ipxwrapper_h) (packet : ipx_packet) :
    router_main_match K packet = fun s => decide (match_inbound_spec K packet s) := by
  funext s
  rw [Bool.eq_iff_iff, router_main_match_iff]
  simp

theorem getsockname_mem_deliver (env : Env) (packet : ipx_packet) (rval : Int) (s : ipx_socket) :
    Event.r_getsockname s.fd ∈ router_main_deliver env packet rval s := by
  unfold router_main_deliver
  cases env.r_getsockname s.fd with
  | none => simp
  | some a => by_cases h : env.r_sendto s.fd = -1 <;> simp [h]

theorem sendto_mem_deliver (env : Env) (packet : ipx_packet) (rval : Int) (s : ipx_socket)
    (a : sockaddr_in) (ha : env.r_getsockname s.fd = some a) :
    Event.r_sendto s.fd packet rval a ∈ router_main_deliver env packet rval s := by
  unfold router_main_deliver
  rw [ha]
  by_cases h : env.r_sendto s.fd = -1 <;> simp [h]

/-- Every event of the delivery to a matching entry is in the trace of the loop. -/
theorem deliver_subset_relay (K : ipxwrapper_h) (env : Env) (packet : ipx_packet) (rval : Int)
    (socks : List ipx_socket) (s : ipx_socket) (hs : s ∈ socks)
    (hm : router_main_match K packet s = true) (e : Event)
    (he : e ∈ router_main_deliver env packet rval s) :
    e ∈ router_main_relay K env packet rval socks := by
  induction socks with
  | nil => cases hs
  | cons t socks ih =>
    simp only [router_main_relay, List.mem_append]
    rcases List.mem_cons.1 hs with h | h
    · left; rw [← h, if_pos hm]; exact he
    · right; exact ih h

theorem deliver_subset_iteration (K : ipxwrapper_h) (env : Env) (st : State)
    (r : recvfrom_result) (s : ipx_socket) (hv : valid_datagram K r) (hs : s ∈ st.sockets)
    (hm : router_main_match K (router_main_ntoh r.packet) s = true) (e : Event)
    (he : e ∈ router_main_deliver env (router_main_ntoh r.packet) r.rval s) :
    e ∈ (router_main_iteration K env st r).2 := by
  rw [iteration_of_valid K env st r hv]
  exact List.mem_append_right _ (deliver_subset_relay K env _ _ _ s hs hm e he)

/-- C5: for a valid datagram the handles `r_getsockname` is called on, in call
order, are the handles of the registry entries that satisfy the matching
predicate, in registry order; `r_sendto` follows on those of them where
`r_getsockname` succeeded, so on all of them when it succeeds everywhere. -/
theorem relay_sequence_is_filtered_registry (K : ipxwrapper_h) (env : Env) (st : State)
    (r : recvfrom_result) (hv : valid_datagram K r) :
    getsockname_fds (router_main_iteration K env st r).2
      = (st.sockets.filter
          (fun s => decide (match_inbound_spec K (router_main_ntoh r.packet) s))).map
            ipx_socket.fd ∧
    sendto_fds (router_main_iteration K env st r).2
      = (st.sockets.filter
          (fun s => decide (match_inbound_spec K (router_main_ntoh r.packet) s)
            && (env.r_getsockname s.fd).isSome)).map ipx_socket.fd ∧
    ((∀ s ∈ st.sockets, (env.r_getsockname s.fd).isSome = true) →
      sendto_fds (router_main_iteration K env st r).2
        = (st.sockets.filter
            (fun s => decide (match_inbound_spec K (router_main_ntoh r.packet) s))).map
              ipx_socket.fd) := by
  rw [getsockname_fds_iteration, sendto_fds_iteration, if_pos hv, if_pos hv,
    router_main_match_eq_decide]
  refine ⟨rfl, rfl, ?_⟩
  intro hall
  congr 1
  apply List.filter_congr
  intro s hs
  simp [hall s hs]

/-- C5 at a concrete input: of the four sample entries, a packet to the
all-ones node is relayed to handles 11 and 12, in that order. -/
theorem relay_sequence_is_filtered_registry_witness :
    valid_datagram sample_h (sample_recv net_1 bcast_node) ∧
    sendto_fds (router_main_iteration sample_h env_ok (sample_state sample_registry)
      (sample_recv net_1 bcast_node)).2 = [11, 12] ∧
    (getsockname_fds (router_main_iteration sample_h env_ok (sample_state sample_registry)
        (sample_recv net_1 bcast_node)).2
      = ((sample_state sample_registry).sockets.filter
          (fun s => decide (match_inbound_spec sample_h
            (router_main_ntoh (sample_recv net_1 bcast_node).packet) s))).map ipx_socket.fd ∧
    sendto_fds (router_main_iteration sample_h env_ok (sample_state sample_registry)
        (sample_recv net_1 bcast_node)).2
      = ((sample_state sample_registry).sockets.filter
          (fun s => decide (match_inbound_spec sample_h
            (router_main_ntoh (sample_recv net_1 bcast_node).packet) s)
            && (env_ok.r_getsockname s.fd).isSome)).map ipx_socket.fd ∧
    ((∀ s ∈ (sample_state sample_registry).sockets,
        (env_ok.r_getsockname s.fd).isSome = true) →
      sendto_fds (router_main_iteration sample_h env_ok (sample_state sample_registry)
          (sample_recv net_1 bcast_node)).2
        = ((sample_state sample_registry).sockets.filter
            (fun s => decide (match_inbound_spec sample_h
              (router_main_ntoh (sample_recv net_1 bcast_node).packet) s))).map
                ipx_socket.fd)) :=
  ⟨by decide, by decide,
    relay_sequence_is_filtered_registry sample_h env_ok (sample_state sample_registry)
      (sample_recv net_1 bcast_node) (by decide)⟩

/-! ## Malformed datagrams -/

/-- C6: a datagram shorter than the header, or whose byte-swapped length field
exceeds MAX_PACKET_SIZE, is discarded: the state (socket list, host list and
mutex flag) is unchanged, the only call made is one `debug`, so neither
delivery call happens, and the loop goes on to the datagrams that follow from
the same state. -/
theorem malformed_datagram_discarded (K : ipxwrapper_h) (env : Env) (st : State)
    (r : recvfrom_result) (rest : List (Env × recvfrom_result))
    (h : r.rval < (K.sizeof_ipx_packet : Int) ∨ K.MAX_PACKET_SIZE < ntohs r.packet.size) :
    (router_main_iteration K env st r).1 = st ∧
    (∃ m, (router_main_iteration K env st r).2 = [Event.debug m]) ∧
    getsockname_fds (router_main_iteration K env st r).2 = [] ∧
    sendto_fds (router_main_iteration K env st r).2 = [] ∧
    router_main K st ((env, r) :: rest)
      = ((router_main K st rest).1,
          (router_main_iteration K env st r).2 ++ (router_main K st rest).2) := by
  have hnv : ¬ valid_datagram K r := by
    rintro ⟨_, h2, h3⟩
    rcases h with h | h <;> omega
  obtain ⟨m, hm⟩ := iteration_of_not_valid K env st r hnv
  refine ⟨by rw [hm], ⟨m, by rw [hm]⟩, by rw [hm]; rfl, by rw [hm]; rfl, ?_⟩
  simp only [router_main, hm]

/-- C6 at a concrete input: a datagram of 12 bytes leaves the sample state as
it is. -/
theorem malformed_datagram_discarded_witness :
    ({ sample_recv net_1 node_a with rval := 12 }.rval < (sample_h.sizeof_ipx_packet : Int) ∨
      sample_h.MAX_PACKET_SIZE < ntohs { sample_recv net_1 node_a with rval := 12 }.packet.size) ∧
    ((router_main_iteration sample_h env_ok (sample_state sample_registry)
        { sample_recv net_1 node_a with rval := 12 }).1 = sample_state sample_registry ∧
      (∃ m, (router_main_iteration sample_h env_ok (sample_state sample_registry)
        { sample_recv net_1 node_a with rval := 12 }).2 = [Event.debug m]) ∧
      getsockname_fds (router_main_iteration sample_h env_ok (sample_state sample_registry)
        { sample_recv net_1 node_a with rval := 12 }).2 = [] ∧
      sendto_fds (router_main_iteration sample_h env_ok (sample_state sample_registry)
        { sample_recv net_1 node_a with rval := 12 }).2 = [] ∧
      router_main sample_h (sample_state sample_registry)
          [(env_ok, { sample_recv net_1 node_a with rval := 12 }),
            (env_ok, sample_recv net_1 node_a)]
        = ((router_main sample_h (sample_state sample_registry)
              [(env_ok, sample_recv net_1 node_a)]).1,
            (router_main_iteration sample_h env_ok (sample_state sample_registry)
              { sample_recv net_1 node_a with rval := 12 }).2
            ++ (router_main sample_h (sample_state sample_registry)
              [(env_ok, sample_recv net_1 node_a)]).2)) :=
  ⟨by decide,
    malformed_datagram_discarded sample_h env_ok (sample_state sample_registry)
      { sample_recv net_1 node_a with rval := 12 } [(env_ok, sample_recv net_1 node_a)]
      (by decide)⟩

/-! ## The host table -/

theorem add_host_loop_none_iff (hw : Bytes6) (ip : Nat) (hosts : List ipx_host) :
    add_host_loop hw ip hosts = none ↔ find_host hw hosts = none := by
  induction hosts with
  | nil => simp [add_host_loop, find_host]
  | cons h t ih =>
    by_cases c : memcmp h.hwaddr.toList hw.toList 6 = 0
    · simp [add_host_loop, find_host, c]
    · simp [add_host_loop, find_host, c, ih]

theorem find_host_add_host_loop (hw : Bytes6) (ip : Nat) (hosts l : List ipx_host)
    (h : add_host_loop hw ip hosts = some l) :
    find_host hw l = some { hwaddr := hw, ipaddr := ip } := by
  induction hosts generalizing l with
  | nil => simp [add_host_loop] at h
  | cons x t ih =>
    by_cases c : memcmp x.hwaddr.toList hw.toList 6 = 0
    · simp only [add_host_loop, if_pos c, Option.some.injEq] at h
      subst h
      have hx : x.hwaddr = hw := (memcmp_bytes6 _ _).1 c
      have c2 : memcmp hw.toList hw.toList 6 = 0 := (memcmp_bytes6 _ _).2 rfl
      simp [find_host, hx, c2]
    · simp only [add_host_loop, if_neg c, Option.map_eq_some'] at h
      obtain ⟨l1, hl1, rfl⟩ := h
      simp [find_host, c, ih l1 hl1]

theorem add_host_loop_hwaddrs (hw : Bytes6) (ip : Nat) (hosts l : List ipx_host)
    (h : add_host_loop hw ip hosts = some l) :
    l.map ipx_host.hwaddr = hosts.map ipx_host.hwaddr := by
  induction hosts generalizing l with
  | nil => simp [add_host_loop] at h
  | cons x t ih =>
    by_cases c : memcmp x.hwaddr.toList hw.toList 6 = 0
    · simp only [add_host_loop, if_pos c, Option.some.injEq] at h
      subst h
      simp
    · simp only [add_host_loop, if_neg c, Option.map_eq_some'] at h
      obtain ⟨l1, hl1, rfl⟩ := h
      simp [ih l1 hl1]

theorem not_mem_of_find_host_none (hw : Bytes6) (hosts : List ipx_host)
    (h : find_host hw hosts = none) : hw ∉ hosts.map ipx_host.hwaddr := by
  induction hosts with
  | nil => simp
  | cons x t ih =>
    by_cases c : memcmp x.hwaddr.toList hw.toList 6 = 0
    · simp [find_host, c] at h
    · simp only [find_host, if_neg c] at h
      have hx : x.hwaddr ≠ hw := fun e => c ((memcmp_bytes6 _ _).2 e)
      simp only [List.map_cons, List.mem_cons, not_or]
      exact ⟨fun e => hx e.symm, ih h⟩

/-- After `add_host` the node is found with the new address, when the node was
in the list already or `malloc` succeeds. -/
theorem find_host_add_host (m : Bool) (hosts : List ipx_host) (hw : Bytes6) (ip : Nat)
    (h : m = true ∨ (find_host hw hosts).isSome = true) :
    find_host hw (add_host m hosts hw ip).1 = some { hwaddr := hw, ipaddr := ip } := by
  unfold add_host
  cases hl : add_host_loop hw ip hosts with
  | some l => exact find_host_add_host_loop hw ip hosts l hl
  | none =>
    have hn : find_host hw hosts = none := (add_host_loop_none_iff hw ip hosts).1 hl
    rcases h with h | h
    · subst h
      have c : memcmp hw.toList hw.toList 6 = 0 := (memcmp_bytes6 _ _).2 rfl
      simp [find_host, c]
    · simp [hn] at h

/-- C7: after `add_host(A, X)` and then `add_host(A, Y)`, `find_host(A)`
returns an entry for A whose address is Y, when at least one of the two calls
is able to allocate a list node. -/
theorem add_host_last_write_wins (m1 m2 : Bool) (hosts : List ipx_host) (A : Bytes6)
    (X Y : Nat) (hm : m1 = true ∨ m2 = true) :
    find_host A (add_host m2 (add_host m1 hosts A X).1 A Y).1
      = some { hwaddr := A, ipaddr := Y } := by
  apply find_host_add_host
  rcases hm with h | h
  · right
    rw [find_host_add_host m1 hosts A X (Or.inl h)]
    rfl
  · exact Or.inl h

/-- C7 at a concrete input: node AA:BB:CC:DD:EE:FF is learnt at one address
and then at another, in a list that holds another node. -/
theorem add_host_last_write_wins_witness :
    ((true = true ∨ true = true)) ∧
    find_host node_a (add_host true
        (add_host true [{ hwaddr := node_b, ipaddr := 0xC0A80007 }] node_a 0xC0A80008).1
        node_a 0xC0A80009).1
      = some { hwaddr := node_a, ipaddr := 0xC0A80009 } :=
  ⟨by decide,
    add_host_last_write_wins true true [{ hwaddr := node_b, ipaddr := 0xC0A80007 }] node_a
      0xC0A80008 0xC0A80009 (by decide)⟩

/-- C8: the empty host list has at most one entry per node number, and
`add_host` keeps that property, whether or not `malloc` succeeds. -/
theorem add_host_keeps_hosts_unique (m : Bool) (hosts : List ipx_host) (hwaddr : Bytes6)
    (ipaddr : Nat) (h : hosts_unique hosts) :
    hosts_unique ([] : List ipx_host) ∧ hosts_unique (add_host m hosts hwaddr ipaddr).1 := by
  refine ⟨List.nodup_nil, ?_⟩
  unfold add_host
  cases hl : add_host_loop hwaddr ipaddr hosts with
  | some l =>
    show (l.map ipx_host.hwaddr).Nodup
    rw [add_host_loop_hwaddrs hwaddr ipaddr hosts l hl]
    exact h
  | none =>
    have hn : find_host hwaddr hosts = none := (add_host_loop_none_iff hwaddr ipaddr hosts).1 hl
    cases m with
    | false => exact h
    | true =>
      show (({ hwaddr := hwaddr, ipaddr := ipaddr } :: hosts : List ipx_host).map
        ipx_host.hwaddr).Nodup
      rw [List.map_cons, List.nodup_cons]
      exact ⟨not_mem_of_find_host_none hwaddr hosts hn, h⟩

/-- C8 at a concrete input: a node already in a two entry list is learnt again. -/
theorem add_host_keeps_hosts_unique_witness :
    hosts_unique [{ hwaddr := node_b, ipaddr := 0xC0A80007 },
      { hwaddr := node_a, ipaddr := 0xC0A80008 }] ∧
    (hosts_unique ([] : List ipx_host) ∧
      hosts_unique (add_host true [{ hwaddr := node_b, ipaddr := 0xC0A80007 },
        { hwaddr := node_a, ipaddr := 0xC0A80008 }] node_a 0xC0A80009).1) :=
  ⟨by decide,
    add_host_keeps_hosts_unique true [{ hwaddr := node_b, ipaddr := 0xC0A80007 },
      { hwaddr := node_a, ipaddr := 0xC0A80008 }] node_a 0xC0A80009 (by decide)⟩

/-- C9: after the loop body has handled a valid datagram from IPv4 address X
with source node A, `find_host(A)` returns an entry for A whose address is
`ntohl(X)`, for every registry, when `malloc` succeeds. -/
theorem router_learns_sender (K : ipxwrapper_h) (env : Env) (st : State)
    (r : recvfrom_result) (hv : valid_datagram K r) (hm : env.malloc_ok = true) :
    find_host r.packet.src_node (router_main_iteration K env st r).1.hosts
      = some { hwaddr := r.packet.src_node, ipaddr := ntohl r.addr.s_addr } := by
  rw [iteration_of_valid K env st r hv]
  exact find_host_add_host env.malloc_ok (lock_mutex st).hosts r.packet.src_node
    (ntohl r.addr.s_addr) (Or.inl hm)

/-- C9 at a concrete input: the sender 192.168.0.7 of a packet that matches no
socket of an empty registry is learnt in host byte order. -/
theorem router_learns_sender_witness :
    (valid_datagram sample_h (sample_recv net_1 node_a) ∧ env_ok.malloc_ok = true) ∧
    ntohl (sample_recv net_1 node_a).addr.s_addr = 0xC0A80007 ∧
    find_host (sample_recv net_1 node_a).packet.src_node
        (router_main_iteration sample_h env_ok (sample_state [])
          (sample_recv net_1 node_a)).1.hosts
      = some { hwaddr := (sample_recv net_1 node_a).packet.src_node,
               ipaddr := ntohl (sample_recv net_1 node_a).addr.s_addr } :=
  ⟨by decide, by decide,
    router_learns_sender sample_h env_ok (sample_state []) (sample_recv net_1 node_a)
      (by decide) (by decide)⟩

/-! ## Delivery failures -/

/-- C10: whatever results the delivery calls return, for a valid datagram
`r_getsockname` is called on every matching entry, and `r_sendto` follows on
every matching entry whose own `r_getsockname` succeeded; the state the loop
body leaves, and the handles it tries, are the same for any other assignment
of delivery results; and the loop goes on with the datagrams that follow. -/
theorem delivery_failure_isolated (K : ipxwrapper_h) (env : Env) (st : State)
    (r : recvfrom_result) (rest : List (Env × recvfrom_result))
    (hv : valid_datagram K r) :
    (∀ s ∈ st.sockets, match_inbound_spec K (router_main_ntoh r.packet) s →
      Event.r_getsockname s.fd ∈ (router_main_iteration K env st r).2 ∧
      ∀ a, env.r_getsockname s.fd = some a →
        Event.r_sendto s.fd (router_main_ntoh r.packet) r.rval a
          ∈ (router_main_iteration K env st r).2) ∧
    (∀ env2 : Env, env2.malloc_ok = env.malloc_ok →
      (router_main_iteration K env2 st r).1 = (router_main_iteration K env st r).1 ∧
      getsockname_fds (router_main_iteration K env2 st r).2
        = getsockname_fds (router_main_iteration K env st r).2) ∧
    router_main K st ((env, r) :: rest)
      = ((router_main K (router_main_iteration K env st r).1 rest).1,
          (router_main_iteration K env st r).2
            ++ (router_main K (router_main_iteration K env st r).1 rest).2) := by
  refine ⟨?_, ?_, rfl⟩
  · intro s hs hmatch
    have hm : router_main_match K (router_main_ntoh r.packet) s = true :=
      (router_main_match_iff K _ s).2 hmatch
    refine ⟨deliver_subset_iteration K env st r s hv hs hm _
      (getsockname_mem_deliver env _ _ s), ?_⟩
    intro a ha
    exact deliver_subset_iteration K env st r s hv hs hm _ (sendto_mem_deliver env _ _ s a ha)
  · intro env2 he
    constructor
    · rw [iteration_of_valid K env2 st r hv, iteration_of_valid K env st r hv, he]
    · rw [getsockname_fds_iteration, getsockname_fds_iteration]

/-- C10 at a concrete input: `r_getsockname` fails at handle 11 and `r_sendto`
at handle 12, and both matching entries are still tried, in registry order. -/
theorem delivery_failure_isolated_witness :
    valid_datagram sample_h (sample_recv net_1 bcast_node) ∧
    (router_main_iteration sample_h env_fail (sample_state sample_registry)
        (sample_recv net_1 bcast_node)).2
      = [Event.r_getsockname 11, Event.r_getsockname 12,
          Event.r_sendto 12 (router_main_ntoh (sample_recv net_1 bcast_node).packet) 30
            { sin_port := 12, s_addr := 0x0100007F },
          Event.debug debug_msg.error_relaying] ∧
    ((∀ s ∈ (sample_state sample_registry).sockets,
        match_inbound_spec sample_h (router_main_ntoh (sample_recv net_1 bcast_node).packet) s →
        Event.r_getsockname s.fd ∈ (router_main_iteration sample_h env_fail
          (sample_state sample_registry) (sample_recv net_1 bcast_node)).2 ∧
        ∀ a, env_fail.r_getsockname s.fd = some a →
          Event.r_sendto s.fd (router_main_ntoh (sample_recv net_1 bcast_node).packet)
              (sample_recv net_1 bcast_node).rval a
            ∈ (router_main_iteration sample_h env_fail (sample_state sample_registry)
                (sample_recv net_1 bcast_node)).2) ∧
      (∀ env2 : Env, env2.malloc_ok = env_fail.malloc_ok →
        (router_main_iteration sample_h env2 (sample_state sample_registry)
            (sample_recv net_1 bcast_node)).1
          = (router_main_iteration sample_h env_fail (sample_state sample_registry)
            (sample_recv net_1 bcast_node)).1 ∧
        getsockname_fds (router_main_iteration sample_h env2 (sample_state sample_registry)
            (sample_recv net_1 bcast_node)).2
          = getsockname_fds (router_main_iteration sample_h env_fail
            (sample_state sample_registry) (sample_recv net_1 bcast_node)).2) ∧
      router_main sample_h (sample_state sample_registry)
          [(env_fail, sample_recv net_1 bcast_node), (env_ok, sample_recv net_1 node_a)]
        = ((router_main sample_h (router_main_iteration sample_h env_fail
              (sample_state sample_registry) (sample_recv net_1 bcast_node)).1
              [(env_ok, sample_recv net_1 node_a)]).1,
            (router_main_iteration sample_h env_fail (sample_state sample_registry)
              (sample_recv net_1 bcast_node)).2
            ++ (router_main sample_h (router_main_iteration sample_h env_fail
              (sample_state sample_registry) (sample_recv net_1 bcast_node)).1
              [(env_ok, sample_recv net_1 node_a)]).2)) :=
  ⟨by decide, by decide,
    delivery_failure_isolated sample_h env_fail (sample_state sample_registry)
      (sample_recv net_1 bcast_node) [(env_ok, sample_recv net_1 node_a)] (by decide)⟩

/-! ## The packet codec -/

theorem ntohs_htons (x : Nat) (h : x < 65536) : ntohs (htons x) = x := by
  unfold ntohs htons
  have hb : x / 256 < 256 := by omega
  have e1 : x / 256 % 256 = x / 256 := Nat.mod_eq_of_lt hb
  rw [e1]
  have e2 : (x % 256 * 256 + x / 256) % 256 = x / 256 := by omega
  have e3 : (x % 256 * 256 + x / 256) / 256 = x % 256 := by omega
  rw [e2, e3]
  omega

/-- The size checks of the loop body are those of the header parse. -/
theorem valid_datagram_iff_decode (K : ipxwrapper_h) (r : recvfrom_result) :
    valid_datagram K r ↔
      0 < r.rval ∧ router_main_decode K r.rval r.packet = some (router_main_ntoh r.packet) := by
  unfold valid_datagram router_main_decode
  by_cases h1 : r.rval < (K.sizeof_ipx_packet : Int)
  · simp only [if_pos h1]
    constructor
    · rintro ⟨_, h2, _⟩; omega
    · rintro ⟨_, h2⟩; cases h2
  · by_cases h2 : (router_main_ntoh r.packet).size > K.MAX_PACKET_SIZE
    · simp only [if_neg h1, if_pos h2]
      constructor
      · rintro ⟨_, _, h3⟩
        have h2' : ntohs r.packet.size > K.MAX_PACKET_SIZE := h2
        omega
      · rintro ⟨_, h3⟩; cases h3
    · simp only [if_neg h1, if_neg h2]
      have h2' : ¬ ntohs r.packet.size > K.MAX_PACKET_SIZE := h2
      constructor
      · rintro ⟨h0, _, _⟩; exact ⟨h0, trivial⟩
      · rintro ⟨h0, _⟩; exact ⟨h0, by omega, by omega⟩

/-- C12: for a packet whose three 16 bit fields are in range and whose length
field is at most MAX_PACKET_SIZE, the header parse of `router_main` applied to
the encoded packet returns the packet. -/
theorem codec_round_trip (K : ipxwrapper_h) (p : ipx_packet)
    (hd : p.dest_socket < 65536) (hs : p.src_socket < 65536) (hz : p.size < 65536)
    (hmax : p.size ≤ K.MAX_PACKET_SIZE) :
    router_main_decode K (encode K p).1 (encode K p).2 = some p := by
  have h1 : ¬ ((K.sizeof_ipx_packet : Int) + (p.data.length : Int)
      < (K.sizeof_ipx_packet : Int)) := by omega
  have h2 : ¬ (p.size > K.MAX_PACKET_SIZE) := by omega
  simp only [router_main_decode, encode, router_main_ntoh, if_neg h1,
    ntohs_htons _ hd, ntohs_htons _ hs, ntohs_htons _ hz, if_neg h2]

/-- C12 at a concrete input: a packet with a two byte payload. -/
theorem codec_round_trip_witness :
    (sample_packet.dest_socket < 65536 ∧ sample_packet.src_socket < 65536 ∧
      sample_packet.size < 65536 ∧ sample_packet.size ≤ sample_h.MAX_PACKET_SIZE) ∧
    (encode sample_h sample_packet).2.dest_socket = 0x5204 ∧
    router_main_decode sample_h (encode sample_h sample_packet).1
      (encode sample_h sample_packet).2 = some sample_packet :=
  ⟨by decide, by decide,
    codec_round_trip sample_h sample_packet (by decide) (by decide) (by decide) (by decide)⟩

/-! ## Threads and the mutex -/

/-- C13 fails on the code: thread 0 takes the lock, and before it calls
`unlock_mutex` thread 1 calls `lock_mutex`, finds the flag `mutex_locked` set
and returns without waiting for the mutex object, which thread 0 still owns.
Both threads are then between a return from `lock_mutex` and their next
`unlock_mutex`. -/
theorem second_thread_passes_lock_mutex (st : State) :
    ∃ c, run_schedule (threads_init st) [(0, Call.lock), (1, Call.lock)] = some c ∧
      c.inside = [1, 0] ∧ c.owner = some 0 ∧ c.globals.mutex_locked = 1 ∧
      ¬ at_most_one_inside c := by
  refine ⟨_, rfl, rfl, rfl, rfl, ?_⟩
  intro h
  have h2 : ([1, 0] : List Nat).dedup.length ≤ 1 := h
  exact absurd h2 (by decide)

/-! ## Looking up a socket -/

theorem lock_mutex_locked (st : State) : (lock_mutex st).mutex_locked ≠ 0 := by
  unfold lock_mutex
  by_cases h : st.mutex_locked ≠ 0
  · simpa [if_pos h] using h
  · simp [if_neg h]

theorem get_socket_loop_some (fd : Nat) (socks : List ipx_socket) (s : ipx_socket)
    (h : get_socket_loop fd socks = some s) :
    ∃ l1 l2, socks = l1 ++ s :: l2 ∧ s.fd = fd ∧ ∀ t ∈ l1, t.fd ≠ fd := by
  induction socks with
  | nil => simp [get_socket_loop] at h
  | cons x rest ih =>
    by_cases c : x.fd = fd
    · simp only [get_socket_loop, if_pos c, Option.some.injEq] at h
      subst h
      exact ⟨[], rest, rfl, c, by simp⟩
    · simp only [get_socket_loop, if_neg c] at h
      obtain ⟨l1, l2, e, hfd, hl1⟩ := ih h
      refine ⟨x :: l1, l2, by rw [e]; rfl, hfd, ?_⟩
      intro t ht
      rcases List.mem_cons.1 ht with rfl | ht
      · exact c
      · exact hl1 t ht

theorem get_socket_loop_none_iff (fd : Nat) (socks : List ipx_socket) :
    get_socket_loop fd socks = none ↔ ∀ s ∈ socks, s.fd ≠ fd := by
  induction socks with
  | nil => simp [get_socket_loop]
  | cons x rest ih =>
    by_cases c : x.fd = fd
    · simp [get_socket_loop, c]
    · simp [get_socket_loop, c, ih]

/-- C14: `get_socket` leaves the socket list (and the host list) as it was;
when some entry has the handle it returns the first such entry in list order
and the flag `mutex_locked` is set on return; when none has it, it returns
NULL and the flag is 0 on return. -/
theorem get_socket_first_entry_and_mutex (fd : Nat) (st : State) :
    (get_socket fd st).2.sockets = st.sockets ∧
    (get_socket fd st).2.hosts = st.hosts ∧
    ((∃ s ∈ st.sockets, s.fd = fd) →
      ∃ l1 s l2, st.sockets = l1 ++ s :: l2 ∧ s.fd = fd ∧ (∀ t ∈ l1, t.fd ≠ fd) ∧
        (get_socket fd st).1 = some s ∧ (get_socket fd st).2.mutex_locked ≠ 0) ∧
    ((∀ s ∈ st.sockets, s.fd ≠ fd) →
      (get_socket fd st).1 = none ∧ (get_socket fd st).2.mutex_locked = 0) := by
  cases hl : get_socket_loop fd st.sockets with
  | none =>
    have e : get_socket fd st = (none, unlock_mutex (lock_mutex st)) := by
      simp [get_socket, lock_mutex_sockets, hl]
    have hall : ∀ s ∈ st.sockets, s.fd ≠ fd := (get_socket_loop_none_iff fd st.sockets).1 hl
    rw [e]
    refine ⟨lock_mutex_sockets st, lock_mutex_hosts st, ?_, fun _ => ⟨rfl, rfl⟩⟩
    rintro ⟨s, hs, hfd⟩
    exact absurd hfd (hall s hs)
  | some s =>
    have e : get_socket fd st = (some s, lock_mutex st) := by
      simp [get_socket, lock_mutex_sockets, hl]
    obtain ⟨l1, l2, e2, hfd, hl1⟩ := get_socket_loop_some fd st.sockets s hl
    rw [e]
    refine ⟨lock_mutex_sockets st, lock_mutex_hosts st,
      fun _ => ⟨l1, s, l2, e2, hfd, hl1, rfl, lock_mutex_locked st⟩, ?_⟩
    intro hall
    rw [(get_socket_loop_none_iff fd st.sockets).2 hall] at hl
    cases hl

/-- C14 at concrete inputs: handle 12 is found in the sample registry and the
flag stays set; handle 99 is not found and the flag is cleared. -/
theorem get_socket_first_entry_and_mutex_witness :
    ((∃ s ∈ (sample_state sample_registry).sockets, s.fd = 12) ∧
      (get_socket 12 (sample_state sample_registry)).1 = some (sample_socket 12 22 net_1 0) ∧
      ∃ l1 s l2, (sample_state sample_registry).sockets = l1 ++ s :: l2 ∧ s.fd = 12 ∧
        (∀ t ∈ l1, t.fd ≠ 12) ∧
        (get_socket 12 (sample_state sample_registry)).1 = some s ∧
        (get_socket 12 (sample_state sample_registry)).2.mutex_locked ≠ 0) ∧
    ((∀ s ∈ (sample_state sample_registry).sockets, s.fd ≠ 99) ∧
      (get_socket 99 (sample_state sample_registry)).1 = none ∧
      (get_socket 99 (sample_state sample_registry)).2.mutex_locked = 0) :=
  ⟨⟨by decide, by decide,
      (get_socket_first_entry_and_mutex 12 (sample_state sample_registry)).2.2.1 (by decide)⟩,
    ⟨by decide,
      (get_socket_first_entry_and_mutex 99 (sample_state sample_registry)).2.2.2 (by decide)⟩⟩

/-! ## The host table: other nodes -/

theorem find_host_add_host_loop_other (A B : Bytes6) (X : Nat) (hosts l : List ipx_host)
    (hne : B ≠ A) (h : add_host_loop A X hosts = some l) :
    find_host B l = find_host B hosts := by
  induction hosts generalizing l with
  | nil => simp [add_host_loop] at h
  | cons x t ih =>
    by_cases c : memcmp x.hwaddr.toList A.toList 6 = 0
    · simp only [add_host_loop, if_pos c, Option.some.injEq] at h
      subst h
      have hx : x.hwaddr = A := (memcmp_bytes6 _ _).1 c
      have cB : ¬ memcmp x.hwaddr.toList B.toList 6 = 0 := by
        intro e
        exact hne (((memcmp_bytes6 _ _).1 e).symm.trans hx)
      simp only [find_host, if_neg cB]
    · simp only [add_host_loop, if_neg c, Option.map_eq_some'] at h
      obtain ⟨l1, hl1, rfl⟩ := h
      simp only [find_host, ih l1 hl1]

/-- C16: for a node B other than A, `find_host(B)` returns after
`add_host(A, X)` what it returned before: the same entry, with the same
address, or NULL in both cases, whether or not `malloc` succeeds. -/
theorem add_host_leaves_other_nodes (m : Bool) (hosts : List ipx_host) (A B : Bytes6)
    (X : Nat) (hne : B ≠ A) :
    find_host B (add_host m hosts A X).1 = find_host B hosts := by
  unfold add_host
  cases hl : add_host_loop A X hosts with
  | some l => exact find_host_add_host_loop_other A B X hosts l hne hl
  | none =>
    cases m with
    | false => rfl
    | true =>
      have cB : ¬ memcmp A.toList B.toList 6 = 0 := by
        intro e
        exact hne ((memcmp_bytes6 _ _).1 e).symm
      simp only [find_host, if_neg cB, if_true]

/-- C16 at a concrete input: node 02:00:00:00:00:07 keeps its address when
node AA:BB:CC:DD:EE:FF is learnt. -/
theorem add_host_leaves_other_nodes_witness :
    node_b ≠ node_a ∧
    find_host node_b (add_host true [{ hwaddr := node_b, ipaddr := 0xC0A80007 }] node_a
        0xC0A80008).1
      = find_host node_b [{ hwaddr := node_b, ipaddr := 0xC0A80007 }] :=
  ⟨by decide,
    add_host_leaves_other_nodes true [{ hwaddr := node_b, ipaddr := 0xC0A80007 }] node_a node_b
      0xC0A80008 (by decide)⟩

/-! ## The interface list -/

theorem two_pow_32 : (2 : Nat) ^ 32 = 4294967296 := by norm_num

theorem testBit_of_lt_32 (x i : Nat) (hx : x < 4294967296) (hi : 32 ≤ i) :
    x.testBit i = false := by
  apply Nat.testBit_lt_two_pow
  have : (2 : Nat) ^ 32 ≤ 2 ^ i := Nat.pow_le_pow_right (by norm_num) hi
  rw [two_pow_32] at this
  omega

theorem not32_lt (x : Nat) : not32 x < 4294967296 := by
  unfold not32; omega

theorem testBit_not32 (x i : Nat) :
    (not32 x).testBit i = (decide (i < 32) && !x.testBit i) := by
  have e : not32 x = 2 ^ 32 - (x % 2 ^ 32 + 1) := by
    rw [two_pow_32]; unfold not32; omega
  rw [e, Nat.testBit_two_pow_sub_succ (Nat.mod_lt _ (Nat.two_pow_pos 32)),
    Nat.testBit_mod_two_pow]
  by_cases h : i < 32 <;> simp [h]

theorem and_mask (x h : Nat) (hx : x < 4294967296) (hh : h ≤ 32) :
    x &&& (4294967296 - 2 ^ h) = 2 ^ h * (x / 2 ^ h) := by
  have hpos : 0 < 2 ^ h := Nat.two_pow_pos h
  have hle : 2 ^ h ≤ 2 ^ 32 := Nat.pow_le_pow_right (by norm_num) hh
  have e : 4294967296 - 2 ^ h = 2 ^ 32 - ((2 ^ h - 1) + 1) := by
    rw [two_pow_32] at *; omega
  apply Nat.eq_of_testBit_eq
  intro i
  rw [Nat.testBit_and, e, Nat.testBit_two_pow_sub_succ (by omega), Nat.testBit_two_pow_sub_one,
    Nat.testBit_mul_pow_two, ← Nat.shiftRight_eq_div_pow, Nat.testBit_shiftRight]
  by_cases h1 : i < h
  · have h3 : ¬ i ≥ h := by omega
    simp [h1, h3]
  · have h3 : i ≥ h := by omega
    have h4 : h + (i - h) = i := by omega
    by_cases h2 : i < 32
    · simp [h1, h2, h3, h4]
    · simp [h1, h2, h3, h4, testBit_of_lt_32 x i hx (by omega)]

/-- The mask of `len` leading one bits has exactly the bits 32 - len to 31 set. -/
theorem testBit_netmask_of_len (len i : Nat) :
    (netmask_of_len len).testBit i = (decide (32 - len ≤ i) && decide (i < 32)) := by
  have hle : 2 ^ (32 - len) ≤ 2 ^ 32 := Nat.pow_le_pow_right (by norm_num) (by omega)
  have hpos : 0 < 2 ^ (32 - len) := Nat.two_pow_pos _
  have e : netmask_of_len len = 2 ^ 32 - ((2 ^ (32 - len) - 1) + 1) := by
    unfold netmask_of_len
    rw [two_pow_32] at *
    omega
  rw [e, Nat.testBit_two_pow_sub_succ (by omega), Nat.testBit_two_pow_sub_one]
  by_cases h1 : i < 32 - len
  · have h2 : ¬ 32 - len ≤ i := by omega
    simp [h1, h2]
  · have h2 : 32 - len ≤ i := by omega
    simp [h1, h2]

theorem or_low (x h : Nat) : x ||| (2 ^ h - 1) = 2 ^ h * (x / 2 ^ h) + (2 ^ h - 1) := by
  have hlt : 2 ^ h - 1 < 2 ^ h := Nat.sub_lt (Nat.two_pow_pos h) (by norm_num)
  apply Nat.eq_of_testBit_eq
  intro i
  rw [Nat.testBit_or, Nat.testBit_mul_pow_two_add _ hlt, Nat.testBit_two_pow_sub_one,
    ← Nat.shiftRight_eq_div_pow, Nat.testBit_shiftRight]
  by_cases h1 : i < h
  · simp [h1]
  · have h4 : h + (i - h) = i := by omega
    simp [h1, h4]

theorem low_and_not1 (h : Nat) (h1 : 1 ≤ h) (hh : h ≤ 32) :
    (2 ^ h - 1) &&& not32 1 = 2 ^ h - 2 := by
  have hlt : 1 < 2 ^ h := Nat.one_lt_two_pow (by omega)
  have e : 2 ^ h - 2 = 2 ^ h - (1 + 1) := rfl
  apply Nat.eq_of_testBit_eq
  intro i
  rw [Nat.testBit_and, testBit_not32, e, Nat.testBit_two_pow_sub_succ hlt,
    Nat.testBit_two_pow_sub_one]
  by_cases h2 : i < h
  · have h3 : i < 32 := by omega
    simp [h2, h3]
  · simp [h2]

theorem not32_mask (h : Nat) (hh : h ≤ 32) : not32 (4294967296 - 2 ^ h) = 2 ^ h - 1 := by
  have hpos : 0 < 2 ^ h := Nat.two_pow_pos h
  have hle : 2 ^ h ≤ 2 ^ 32 := Nat.pow_le_pow_right (by norm_num) hh
  rw [two_pow_32] at hle
  unfold not32
  omega

theorem block_le (x h : Nat) (hx : x < 4294967296) (hh : h ≤ 32) :
    2 ^ h * (x / 2 ^ h) + 2 ^ h ≤ 4294967296 := by
  have e : (2 : Nat) ^ h * 2 ^ (32 - h) = 4294967296 := by
    rw [← Nat.pow_add, ← two_pow_32]
    congr 1
    omega
  have hq : x / 2 ^ h < 2 ^ (32 - h) := Nat.div_lt_of_lt_mul (by rw [e]; exact hx)
  calc 2 ^ h * (x / 2 ^ h) + 2 ^ h = 2 ^ h * (x / 2 ^ h + 1) := by ring
    _ ≤ 2 ^ h * 2 ^ (32 - h) := Nat.mul_le_mul_left _ hq
    _ = 4294967296 := e

theorem ntohl_lt (x : Nat) : ntohl x < 4294967296 := by
  unfold ntohl; omega

theorem or_lt_32 (x y : Nat) (hx : x < 4294967296) (hy : y < 4294967296) :
    x ||| y < 4294967296 := by
  rw [← two_pow_32] at *
  exact Nat.or_lt_two_pow hx hy

theorem and_lt_32 (x y : Nat) (hy : y < 4294967296) : x &&& y < 4294967296 := by
  rw [← two_pow_32] at *
  exact Nat.and_lt_two_pow x hy

theorem ntohl_of_bytes (b0 b1 b2 b3 : Nat) (h0 : b0 < 256) (h1 : b1 < 256) (h2 : b2 < 256)
    (h3 : b3 < 256) :
    ntohl (b0 * 16777216 + b1 * 65536 + b2 * 256 + b3)
      = b3 * 16777216 + b2 * 65536 + b1 * 256 + b0 := by
  have d1 : (b0 * 16777216 + b1 * 65536 + b2 * 256 + b3) / 256
      = b0 * 65536 + b1 * 256 + b2 := by omega
  have d2 : (b0 * 16777216 + b1 * 65536 + b2 * 256 + b3) / 65536 = b0 * 256 + b1 := by omega
  have d3 : (b0 * 16777216 + b1 * 65536 + b2 * 256 + b3) / 16777216 = b0 := by omega
  unfold ntohl
  rw [d1, d2, d3]
  omega

/-- Every 32 bit host-order value is `ntohl` of a 32 bit value. -/
theorem ntohl_ntohl (x : Nat) (h : x < 4294967296) : ntohl (ntohl x) = x := by
  have e : ntohl x = (x % 256) * 16777216 + (x / 256 % 256) * 65536 + (x / 65536 % 256) * 256
      + (x / 16777216) % 256 := rfl
  rw [e, ntohl_of_bytes _ _ _ _ (by omega) (by omega) (by omega) (by omega)]
  have q1 : x / 256 / 256 = x / 65536 := Nat.div_div_eq_div_mul x 256 256
  have q2 : x / 65536 / 256 = x / 16777216 := Nat.div_div_eq_div_mul x 65536 256
  omega

/-- The loop after its first pass: `nics` keeps its head and ends in the record
of the last adapter. -/
theorem DllMain_nics_later (k : Nat) (built : List ipx_nic) (enic : ipx_nic)
    (tl : List ipx_nic) (ifs : List IP_ADAPTER_INFO) :
    DllMain_nics (fun _ => true) k built (enic :: tl) ifs
      = some (built ++ ifs.map DllMain_nic,
          match ifs.getLast? with
          | none => enic :: tl
          | some z => [enic, DllMain_nic z]) := by
  induction ifs generalizing k built tl with
  | nil =>
    have stop : DllMain_nics (fun _ => true) k built (enic :: tl) []
        = some (built, enic :: tl) := rfl
    rw [stop]
    simp
  | cons a rest ih =>
    have step : DllMain_nics (fun _ => true) k built (enic :: tl) (a :: rest)
        = DllMain_nics (fun _ => true) (k + 1) (built ++ [DllMain_nic a])
            [enic, DllMain_nic a] rest := rfl
    rw [step, ih]
    cases rest with
    | nil => simp
    | cons b rest2 =>
      rw [List.getLast?_cons_cons]
      cases h : (b :: rest2).getLast? with
      | none => simp at h
      | some z => simp

/-- The loop from the start, when every `malloc` succeeds: a record is built
for every adapter, and `nics` holds the first and the last of them. -/
theorem DllMain_nics_all (ifs : List IP_ADAPTER_INFO) :
    DllMain_nics (fun _ => true) 0 [] [] ifs
      = some (ifs.map DllMain_nic,
          (ifs.head?.map DllMain_nic).toList ++ (ifs.tail.getLast?.map DllMain_nic).toList) := by
  cases ifs with
  | nil => rfl
  | cons a rest =>
    have step : DllMain_nics (fun _ => true) 0 [] [] (a :: rest)
        = DllMain_nics (fun _ => true) (0 + 1) ([] ++ [DllMain_nic a]) [DllMain_nic a] rest :=
      rfl
    rw [step, DllMain_nics_later]
    cases h : rest.getLast? <;> simp [h]

/-- With three adapters the record of the second one is built and then
dropped from `nics`. -/
theorem DllMain_nics_three (a b c : IP_ADAPTER_INFO) :
    DllMain_nics (fun _ => true) 0 [] [] [a, b, c]
      = some ([DllMain_nic a, DllMain_nic b, DllMain_nic c],
          [DllMain_nic a, DllMain_nic c]) := rfl

/-- The three stores of `DllMain` lose no bits. -/
theorem nic_bcast_eq (ifptr : IP_ADAPTER_INFO) :
    (DllMain_nic ifptr).bcast = ntohl ifptr.IpAddress ||| not32 (ntohl ifptr.IpMask) :=
  Nat.mod_eq_of_lt (or_lt_32 _ _ (ntohl_lt _) (not32_lt _))

theorem nic_start_eq (ifptr : IP_ADAPTER_INFO) :
    (DllMain_nic ifptr).start = (ntohl ifptr.IpAddress &&& ntohl ifptr.IpMask) ||| 1 :=
  Nat.mod_eq_of_lt (or_lt_32 _ _ (and_lt_32 _ _ (ntohl_lt _)) (by norm_num))

theorem nic_end_eq (ifptr : IP_ADAPTER_INFO) :
    (DllMain_nic ifptr).end_
      = (ntohl ifptr.IpAddress &&& ntohl ifptr.IpMask)
          ||| (not32 (ntohl ifptr.IpMask) &&& not32 1) :=
  Nat.mod_eq_of_lt (or_lt_32 _ _ (and_lt_32 _ _ (ntohl_lt _)) (and_lt_32 _ _ (not32_lt _)))

/-- C11: when every `malloc` succeeds `DllMain` builds one record for every
adapter, in adapter order (of which the list `nics` keeps the first and the
last).  The record built for an adapter holds ip and mask, the host-order
values of the adapter's address and netmask, and 32 bit values that are, bit
by bit, bcast = ip | ~mask, start = (ip & mask) | 1 and
end = (ip & mask) | (~mask & ~1). -/
theorem nic_derived_addresses (ifs : List IP_ADAPTER_INFO) (ifptr : IP_ADAPTER_INFO) :
    DllMain_nics (fun _ => true) 0 [] [] ifs
      = some (ifs.map DllMain_nic,
          (ifs.head?.map DllMain_nic).toList
            ++ (ifs.tail.getLast?.map DllMain_nic).toList) ∧
    ((DllMain_nic ifptr).ipaddr = ntohl ifptr.IpAddress ∧
      (DllMain_nic ifptr).netmask = ntohl ifptr.IpMask) ∧
    ((DllMain_nic ifptr).ipaddr < 2 ^ 32 ∧ (DllMain_nic ifptr).netmask < 2 ^ 32 ∧
      (DllMain_nic ifptr).bcast < 2 ^ 32 ∧ (DllMain_nic ifptr).start < 2 ^ 32 ∧
      (DllMain_nic ifptr).end_ < 2 ^ 32) ∧
    (∀ i : Fin 32,
      (DllMain_nic ifptr).bcast.testBit i
        = ((ntohl ifptr.IpAddress).testBit i || !(ntohl ifptr.IpMask).testBit i) ∧
      (DllMain_nic ifptr).start.testBit i
        = (((ntohl ifptr.IpAddress).testBit i && (ntohl ifptr.IpMask).testBit i)
            || Nat.testBit 1 i) ∧
      (DllMain_nic ifptr).end_.testBit i
        = (((ntohl ifptr.IpAddress).testBit i && (ntohl ifptr.IpMask).testBit i)
            || (!(ntohl ifptr.IpMask).testBit i && !Nat.testBit 1 i))) := by
  refine ⟨DllMain_nics_all ifs, ⟨rfl, rfl⟩, ?_, ?_⟩
  · rw [two_pow_32]
    refine ⟨ntohl_lt _, ntohl_lt _, ?_, ?_, ?_⟩
    · exact Nat.mod_lt _ (by norm_num)
    · exact Nat.mod_lt _ (by norm_num)
    · exact Nat.mod_lt _ (by norm_num)
  · intro i
    have hi : (i : Nat) < 32 := i.isLt
    rw [nic_bcast_eq, nic_start_eq, nic_end_eq]
    simp only [Nat.testBit_or, Nat.testBit_and, testBit_not32, hi, decide_True, Bool.true_and]
    exact ⟨trivial, trivial, trivial⟩

/-- C15: for an adapter whose host-order address is ip and whose host-order
netmask has `len` leading one bits, `len` at most 30, the record `DllMain`
builds holds ip and the mask, bcast = ip | ~mask, which is the network part
ip & mask plus the host part of all ones, start = (ip & mask) + 1 and
end = bcast - 1; hence (ip & mask) < start <= end < bcast, and every address
from start to end has the network part of the interface. -/
theorem nic_range_well_formed (ifptr : IP_ADAPTER_INFO) (ip len : Nat)
    (hip : ntohl ifptr.IpAddress = ip) (hmask : ntohl ifptr.IpMask = netmask_of_len len)
    (hlen : len ≤ 30) :
    ((DllMain_nic ifptr).ipaddr = ip ∧ (DllMain_nic ifptr).netmask = netmask_of_len len) ∧
    ((DllMain_nic ifptr).bcast = ip ||| not32 (netmask_of_len len) ∧
      (DllMain_nic ifptr).bcast = (ip &&& netmask_of_len len) + (2 ^ (32 - len) - 1)) ∧
    (DllMain_nic ifptr).start = (ip &&& netmask_of_len len) + 1 ∧
    (DllMain_nic ifptr).end_ = (DllMain_nic ifptr).bcast - 1 ∧
    ((ip &&& netmask_of_len len) < (DllMain_nic ifptr).start ∧
      (DllMain_nic ifptr).start ≤ (DllMain_nic ifptr).end_ ∧
      (DllMain_nic ifptr).end_ < (DllMain_nic ifptr).bcast) ∧
    (∀ a, (DllMain_nic ifptr).start ≤ a → a ≤ (DllMain_nic ifptr).end_ →
      a &&& netmask_of_len len = ip &&& netmask_of_len len) := by
  have hip32 : ip < 4294967296 := by rw [← hip]; exact ntohl_lt _
  have hh : 32 - len ≤ 32 := by omega
  have hpow : 4 ≤ 2 ^ (32 - len) := by
    have : (2 : Nat) ^ 2 ≤ 2 ^ (32 - len) := Nat.pow_le_pow_right (by norm_num) (by omega)
    simpa using this
  have hnet := and_mask ip (32 - len) hip32 hh
  have hblock := block_le ip (32 - len) hip32 hh
  have hbor : (DllMain_nic ifptr).bcast = ip ||| not32 (netmask_of_len len) := by
    rw [nic_bcast_eq, hip, hmask]
  have hstart : (DllMain_nic ifptr).start = 2 ^ (32 - len) * (ip / 2 ^ (32 - len)) + 1 := by
    rw [nic_start_eq, hip, hmask, netmask_of_len, hnet]
    exact (Nat.mul_add_lt_is_or (by omega) _).symm
  have hend : (DllMain_nic ifptr).end_
      = 2 ^ (32 - len) * (ip / 2 ^ (32 - len)) + (2 ^ (32 - len) - 2) := by
    rw [nic_end_eq, hip, hmask, netmask_of_len, hnet, not32_mask _ hh,
      low_and_not1 _ (by omega) hh]
    exact (Nat.mul_add_lt_is_or (by omega) _).symm
  have hbcast : (DllMain_nic ifptr).bcast
      = 2 ^ (32 - len) * (ip / 2 ^ (32 - len)) + (2 ^ (32 - len) - 1) := by
    rw [nic_bcast_eq, hip, hmask, netmask_of_len, not32_mask _ hh, or_low]
  refine ⟨⟨hip, hmask⟩, ⟨hbor, ?_⟩, ?_, ?_, ?_, ?_⟩
  · rw [netmask_of_len, hnet, hbcast]
  · rw [netmask_of_len, hnet, hstart]
  · rw [hend, hbcast]; omega
  · rw [netmask_of_len, hnet, hstart, hend, hbcast]
    exact ⟨by omega, by omega, by omega⟩
  · intro a ha1 ha2
    rw [hstart] at ha1
    rw [hend] at ha2
    have ha : a < 4294967296 := by omega
    rw [netmask_of_len, hnet, and_mask a (32 - len) ha hh]
    congr 1
    apply Nat.div_eq_of_lt_le
    · rw [Nat.mul_comm]; omega
    · rw [Nat.add_mul, Nat.mul_comm]; omega

/-- C15 at a concrete input: the adapter 192.168.0.7 with mask 255.255.255.0
has the range 192.168.0.1 to 192.168.0.254 below the broadcast address
192.168.0.255. -/
theorem nic_range_well_formed_witness :
    (ntohl sample_adapter.IpAddress = 0xC0A80007 ∧
      ntohl sample_adapter.IpMask = netmask_of_len 24 ∧ 24 ≤ 30) ∧
    ((DllMain_nic sample_adapter).start = 0xC0A80001 ∧
      (DllMain_nic sample_adapter).end_ = 0xC0A800FE ∧
      (DllMain_nic sample_adapter).bcast = 0xC0A800FF) ∧
    (((DllMain_nic sample_adapter).ipaddr = 0xC0A80007 ∧
        (DllMain_nic sample_adapter).netmask = netmask_of_len 24) ∧
      ((DllMain_nic sample_adapter).bcast = 0xC0A80007 ||| not32 (netmask_of_len 24) ∧
        (DllMain_nic sample_adapter).bcast
          = (0xC0A80007 &&& netmask_of_len 24) + (2 ^ (32 - 24) - 1)) ∧
      (DllMain_nic sample_adapter).start = (0xC0A80007 &&& netmask_of_len 24) + 1 ∧
      (DllMain_nic sample_adapter).end_ = (DllMain_nic sample_adapter).bcast - 1 ∧
      ((0xC0A80007 &&& netmask_of_len 24) < (DllMain_nic sample_adapter).start ∧
        (DllMain_nic sample_adapter).start ≤ (DllMain_nic sample_adapter).end_ ∧
        (DllMain_nic sample_adapter).end_ < (DllMain_nic sample_adapter).bcast) ∧
      (∀ a, (DllMain_nic sample_adapter).start ≤ a → a ≤ (DllMain_nic sample_adapter).end_ →
        a &&& netmask_of_len 24 = 0xC0A80007 &&& netmask_of_len 24)) :=
  ⟨by decide, by decide,
    nic_range_well_formed sample_adapter 0xC0A80007 24 (by decide) (by decide) (by decide)⟩

end Ipxwrapper
